import Mathlib

/-!
Verification of the trading-bot position ledger, signal engine and
decision step.

The Python modules `portfolio.py`, `indicators.py`, `signals.py`,
`checks.py` and the `run_strategy` method of `main.py` are shallowly
embedded below: Python dicts become finite maps `String → Option _`,
pandas float columns become lists of an explicit IEEE-style value type
(`PFloat`, with `inf` and `nan` modelled as constructors), and the
side-effecting `update_position` method becomes a pure state-passing
function (logging calls are dropped; `datetime.now()` becomes an
explicit timestamp argument).
-/

namespace Spec2Proof

/-! ## Position ledger (`portfolio.py`, class `PortfolioManager`) -/

/-- The four `action` strings accepted by `update_position`. -/
inductive Action where
  | BUY
  | SELL
  | SHORT
  | COVER
deriving DecidableEq, Repr

/-- The `position_type` field values stored in the positions dict. -/
inductive PositionType where
  | LONG
  | SHORT
deriving DecidableEq, Repr

/-- One value of the `self.positions` dict:
`{qty, entry_price, entry_time, position_type}`. -/
structure PositionEntry where
  qty : Int
  entry_price : ℚ
  entry_time : Nat
  position_type : PositionType
deriving DecidableEq, Repr

/-- One element of the `self.trades` list, as appended at the end of
`update_position`. -/
structure Trade where
  symbol : String
  action : Action
  qty : Int
  price : ℚ
  timestamp : Nat
  order_id : Option Nat
deriving DecidableEq, Repr

/-- The positions dict, keyed by symbol. -/
def PositionsMap : Type := String → Option PositionEntry

/-- `self.positions[symbol] = v` (insert or overwrite). -/
def PositionsMap.set (m : PositionsMap) (k : String) (v : PositionEntry) :
    PositionsMap :=
  fun k' => if k' = k then some v else m k'

/-- `del self.positions[symbol]`. -/
def PositionsMap.del (m : PositionsMap) (k : String) : PositionsMap :=
  fun k' => if k' = k then none else m k'

/-- The mutable state of a `PortfolioManager` instance. -/
structure PortfolioManager where
  positions : PositionsMap
  trades : List Trade

/-- A freshly constructed `PortfolioManager()`: empty dict, empty list. -/
def PortfolioManager.empty : PortfolioManager :=
  { positions := fun _ => none, trades := [] }

/-- `PortfolioManager.update_position(symbol, quantity, price, action,
order_id)`.  `timestamp` stands for the `datetime.now()` taken at entry.
Mirrors `portfolio.py` lines 13–118 branch by branch; the trade record
is appended unconditionally at the end. -/
def update_position (pm : PortfolioManager) (symbol : String) (quantity : Int)
    (price : ℚ) (action : Action) (order_id : Option Nat) (timestamp : Nat) :
    PortfolioManager :=
  let positions : PositionsMap :=
    match action with
    | .BUY =>
      match pm.positions symbol with
      | some e =>
        let old_qty := e.qty
        let old_price := e.entry_price
        let new_qty := old_qty + quantity
        if new_qty ≠ 0 then
          pm.positions.set symbol
            { e with
              entry_price :=
                ((old_qty : ℚ) * old_price + (quantity : ℚ) * price) /
                  (new_qty : ℚ)
              qty := new_qty }
        else
          pm.positions.del symbol
      | none =>
        pm.positions.set symbol
          { qty := quantity, entry_price := price, entry_time := timestamp
            position_type := .LONG }
    | .SELL =>
      match pm.positions symbol with
      | some e =>
        let current_qty := e.qty
        let new_qty := current_qty - quantity
        if new_qty ≤ 0 then
          pm.positions.del symbol
        else
          pm.positions.set symbol { e with qty := new_qty }
      | none =>
        pm.positions
    | .SHORT =>
      match pm.positions symbol with
      | some e =>
        let old_qty := e.qty
        let old_price := e.entry_price
        let new_qty := old_qty - quantity
        if new_qty = 0 then
          pm.positions.del symbol
        else
          pm.positions.set symbol
            { e with
              entry_price :=
                ((old_qty : ℚ) * old_price - (quantity : ℚ) * price) /
                  (new_qty : ℚ)
              qty := new_qty
              position_type := if new_qty < 0 then .SHORT else .LONG }
      | none =>
        pm.positions.set symbol
          { qty := -quantity, entry_price := price, entry_time := timestamp
            position_type := .SHORT }
    | .COVER =>
      match pm.positions symbol with
      | some e =>
        if e.qty < 0 then
          let current_qty := e.qty
          let new_qty := current_qty + quantity
          if 0 ≤ new_qty then
            if new_qty = 0 then
              pm.positions.del symbol
            else
              pm.positions.set symbol
                { e with qty := new_qty, position_type := .LONG
                         entry_price := price }
          else
            pm.positions.set symbol { e with qty := new_qty }
        else
          pm.positions
      | none =>
        pm.positions
  let trade : Trade :=
    { symbol := symbol, action := action, qty := quantity, price := price
      timestamp := timestamp, order_id := order_id }
  { positions := positions, trades := pm.trades ++ [trade] }

/-- `PortfolioManager.get_position(symbol)`: the `qty` field, or 0 if
the symbol is absent. -/
def get_position (pm : PortfolioManager) (symbol : String) : Int :=
  match pm.positions symbol with
  | some e => e.qty
  | none => 0

/-- One fill, bundling the arguments of a single `update_position` call. -/
structure Fill where
  symbol : String
  quantity : Int
  price : ℚ
  action : Action
  order_id : Option Nat
  timestamp : Nat
deriving DecidableEq, Repr

/-- Apply one fill to the ledger. -/
def applyFill (pm : PortfolioManager) (f : Fill) : PortfolioManager :=
  update_position pm f.symbol f.quantity f.price f.action f.order_id f.timestamp

/-- Apply a sequence of fills in order. -/
def applyFills (pm : PortfolioManager) (fs : List Fill) : PortfolioManager :=
  fs.foldl applyFill pm

/-- The trade record that `update_position` appends for a fill. -/
def tradeOf (f : Fill) : Trade :=
  { symbol := f.symbol, action := f.action, qty := f.quantity
    price := f.price, timestamp := f.timestamp, order_id := f.order_id }

/-- A fill's quantity signed by its action: BUY and COVER count
positive, SELL and SHORT count negative. -/
def signedQty (a : Action) (q : Int) : Int :=
  match a with
  | .BUY => q
  | .COVER => q
  | .SELL => -q
  | .SHORT => -q

/-- Signed sum of the quantities of the trade records logged for a
symbol. -/
def tradeSum (trades : List Trade) (symbol : String) : Int :=
  ((trades.filter (fun t => t.symbol = symbol)).map
    (fun t => signedQty t.action t.qty)).sum

theorem PositionsMap.set_self (m : PositionsMap) (k : String)
    (v : PositionEntry) : m.set k v k = some v := by
  simp [PositionsMap.set]

theorem PositionsMap.set_ne (m : PositionsMap) (k k' : String)
    (v : PositionEntry) (h : k' ≠ k) : m.set k v k' = m k' := by
  simp [PositionsMap.set, h]

theorem PositionsMap.del_self (m : PositionsMap) (k : String) :
    m.del k k = none := by
  simp [PositionsMap.del]

theorem PositionsMap.del_ne (m : PositionsMap) (k k' : String)
    (h : k' ≠ k) : m.del k k' = m k' := by
  simp [PositionsMap.del, h]

/-- The ledger state after `applyFill(BUY, 10, $100)` from a fresh
manager (first half of the C8 scenario). -/
def afterBuy10 : PortfolioManager :=
  applyFill .empty ⟨"A", 10, 100, .BUY, none, 0⟩

/-- The ledger state after `applyFill(SHORT, 5, $50)` from a fresh
manager (first half of the C4 scenario). -/
def afterShort5 : PortfolioManager :=
  applyFill .empty ⟨"A", 5, 50, .SHORT, none, 0⟩

/-- C8: SELL on a LONG position subtracts the sell quantity; a result
that is ≤ 0 removes the position, a positive result keeps the entry
(average) price and every other stored field unchanged; and the
concrete scenario BUY 10 @ 100 then SELL 10 @ 110 from a fresh ledger
leaves the symbol absent with exactly 2 logged trades. -/
theorem C8_sell_on_long (pm : PortfolioManager) (symbol : String)
    (e : PositionEntry) (q : Int) (p : ℚ) (oid : Option Nat) (ts : Nat)
    (hget : pm.positions symbol = some e) (_hlong : 0 < e.qty) :
    ((e.qty - q ≤ 0 →
        (update_position pm symbol q p .SELL oid ts).positions symbol = none) ∧
     (0 < e.qty - q →
        (update_position pm symbol q p .SELL oid ts).positions symbol =
          some { e with qty := e.qty - q })) ∧
    ((applyFill afterBuy10 ⟨"A", 10, 110, .SELL, none, 1⟩).positions "A" =
        none ∧
     (applyFill afterBuy10 ⟨"A", 10, 110, .SELL, none, 1⟩).trades.length = 2) := by
  refine ⟨⟨fun hle => ?_, fun hpos => ?_⟩, by decide, by decide⟩
  · simp only [update_position, hget]
    rw [if_pos hle]
    exact PositionsMap.del_self _ _
  · simp only [update_position, hget]
    rw [if_neg (by omega)]
    exact PositionsMap.set_self _ _ _

/-- Witness for C8 at a concrete input: selling the whole long closes
the position. -/
theorem C8_sell_on_long_witness :
    (update_position afterBuy10 "A" 10 110 .SELL none 1).positions "A" =
      none :=
  (C8_sell_on_long afterBuy10 "A" ⟨10, 100, 0, .LONG⟩ 10 110 none 1
    (by decide) (by decide)).1.1 (by decide)

/-- C4: COVER on a SHORT position that crosses through zero closes the
short and opens a long at the cover price (entry price reset to the
cover price, type LONG); a COVER reaching exactly zero removes the
position; and the concrete flip scenario SHORT 5 @ 50 then COVER 8 @ 40
from a fresh ledger gives {qty −5, avg 50, SHORT} then
{qty 3, avg 40, LONG}. -/
theorem C4_cover_flip (pm : PortfolioManager) (symbol : String)
    (e : PositionEntry) (q : Int) (p : ℚ) (oid : Option Nat) (ts : Nat)
    (hget : pm.positions symbol = some e) (hshort : e.qty < 0) :
    ((0 < e.qty + q →
        (update_position pm symbol q p .COVER oid ts).positions symbol =
          some { e with qty := e.qty + q, entry_price := p
                        position_type := .LONG }) ∧
     (e.qty + q = 0 →
        (update_position pm symbol q p .COVER oid ts).positions symbol =
          none)) ∧
    (afterShort5.positions "A" = some ⟨-5, 50, 0, .SHORT⟩ ∧
     (applyFill afterShort5 ⟨"A", 8, 40, .COVER, none, 1⟩).positions "A" =
        some ⟨3, 40, 0, .LONG⟩) := by
  refine ⟨⟨fun hpos => ?_, fun hzero => ?_⟩, by decide, by decide⟩
  · simp only [update_position, hget]
    rw [if_pos hshort, if_pos (by omega : (0:Int) ≤ e.qty + q),
      if_neg (by omega : ¬ e.qty + q = 0)]
    exact PositionsMap.set_self _ _ _
  · simp only [update_position, hget]
    rw [if_pos hshort, if_pos (by omega : (0:Int) ≤ e.qty + q),
      if_pos hzero]
    exact PositionsMap.del_self _ _

/-- Witness for C4 at a concrete input: covering 8 against a short of 5
flips to a long of 3 at the cover price. -/
theorem C4_cover_flip_witness :
    (update_position afterShort5 "A" 8 40 .COVER none 1).positions "A" =
      some ⟨3, 40, 0, .LONG⟩ := by
  have h := (C4_cover_flip afterShort5 "A" ⟨-5, 50, 0, .SHORT⟩ 8 40 none 1
    (by decide) (by decide)).1.1 (by decide)
  simpa using h

/-- Shared helper: the trade-log effect of a single `update_position`
call is always exactly one appended record. -/
theorem applyFill_trades (pm : PortfolioManager) (f : Fill) :
    (applyFill pm f).trades = pm.trades ++ [tradeOf f] := by
  cases f with
  | mk symbol quantity price action order_id timestamp =>
    cases action <;> rfl

/-- C10: every call to `update_position` appends exactly one trade
record — the record built from its arguments — regardless of the
action's validity (SELL of an absent symbol and COVER of a non-short
symbol leave the positions dict alone but still log the trade). -/
theorem C10_trade_log_append (pm : PortfolioManager) (f : Fill) :
    (applyFill pm f).trades = pm.trades ++ [tradeOf f] :=
  applyFill_trades pm f

/-- C2 counterexample: with a LONG position of 10 in "A" (from BUY 10 @
100), applying a SHORT fill of 5 @ 90 is not rejected and does not
leave the ledger unchanged: the position quantity drops from 10 to 5
and a trade record is appended (`update_position` has no
`InvalidTransition` path at all — the SHORT branch applies its
arithmetic to a long position as well). -/
theorem C2_counterexample :
    get_position (applyFill afterBuy10 ⟨"A", 5, 90, .SHORT, none, 1⟩) "A" ≠
      get_position afterBuy10 "A" ∧
    (applyFill afterBuy10 ⟨"A", 5, 90, .SHORT, none, 1⟩).trades.length ≠
      afterBuy10.trades.length := by
  decide

/-- C2 amended: applying a SHORT fill while LONG is not rejected; the
short quantity is subtracted from the long quantity (the position is
removed if the result is exactly zero, otherwise the entry price is
recomputed as (oldQty·oldPrice − qty·price)/newQty and the position
type becomes SHORT exactly when the new quantity is negative), and a
trade record is appended. -/
theorem C2_short_while_long (pm : PortfolioManager) (symbol : String)
    (e : PositionEntry) (q : Int) (p : ℚ) (oid : Option Nat) (ts : Nat)
    (hget : pm.positions symbol = some e) (_hlong : 0 < e.qty) :
    ((e.qty - q = 0 →
        (update_position pm symbol q p .SHORT oid ts).positions symbol =
          none) ∧
     (e.qty - q ≠ 0 →
        (update_position pm symbol q p .SHORT oid ts).positions symbol =
          some { e with
                 qty := e.qty - q
                 entry_price :=
                   ((e.qty : ℚ) * e.entry_price - (q : ℚ) * p) /
                     ((e.qty - q : Int) : ℚ)
                 position_type :=
                   if e.qty - q < 0 then .SHORT else .LONG })) ∧
    (update_position pm symbol q p .SHORT oid ts).trades =
      pm.trades ++ [⟨symbol, .SHORT, q, p, ts, oid⟩] := by
  refine ⟨⟨fun hzero => ?_, fun hne => ?_⟩, rfl⟩
  · simp only [update_position, hget]
    rw [if_pos hzero]
    exact PositionsMap.del_self _ _
  · simp only [update_position, hget]
    rw [if_neg hne]
    exact PositionsMap.set_self _ _ _

/-- Witness for the amended C2 at a concrete input: SHORT 5 @ 90 on a
long of 10 @ 100 leaves a long of 5 with entry price 110. -/
theorem C2_short_while_long_witness :
    (update_position afterBuy10 "A" 5 90 .SHORT none 1).positions "A" =
      some ⟨5, 110, 0, .LONG⟩ := by
  have h := (C2_short_while_long afterBuy10 "A" ⟨10, 100, 0, .LONG⟩ 5 90
    none 1 (by decide) (by decide)).1.2 (by decide)
  rw [h]
  norm_num

/-- The same terminal fill event twice: BUY 10 @ 100 with broker order
id 7. -/
def buyFillOid7 : Fill := ⟨"A", 10, 100, .BUY, some 7, 0⟩

/-- C3 counterexample: applying the same terminal fill event (same
brokerOrderId 7) twice from an empty ledger changes the ledger twice:
the position quantity doubles from 10 to 20 and the trade log grows to
2 records — the second application is a no-op on neither the position
map nor the trade log. -/
theorem C3_counterexample :
    get_position (applyFill (applyFill .empty buyFillOid7) buyFillOid7)
        "A" ≠ get_position (applyFill .empty buyFillOid7) "A" ∧
    (applyFill (applyFill .empty buyFillOid7) buyFillOid7).trades.length =
      2 := by
  decide

/-- C3 amended: `update_position` performs no deduplication by
brokerOrderId: applying the same fill event twice appends the same
trade record both times (and re-runs the position arithmetic), so
duplicate terminal notifications are not idempotent. -/
theorem C3_no_dedupe (pm : PortfolioManager) (f : Fill) :
    (applyFill (applyFill pm f) f).trades =
      pm.trades ++ [tradeOf f, tradeOf f] := by
  rw [applyFill_trades, applyFill_trades, List.append_assoc]
  rfl

/-! ## Indicators (`indicators.py`)

pandas/numpy float columns are modelled as lists of `PFloat`: an exact
rational together with the IEEE special values `inf`, `ninf` and `nan`
as explicit constructors.  The arithmetic below follows the IEEE rules
for the special values (sign-of-zero subtleties never arise here since
all inputs to the special cases are nonnegative). -/

/-- A pandas float value: finite rational, ±infinity, or NaN. -/
inductive PFloat where
  | fin : ℚ → PFloat
  | inf : PFloat
  | ninf : PFloat
  | nan : PFloat
deriving DecidableEq, Repr

/-- IEEE addition on `PFloat`. -/
def PFloat.add : PFloat → PFloat → PFloat
  | .nan, _ => .nan
  | _, .nan => .nan
  | .fin a, .fin b => .fin (a + b)
  | .fin _, .inf => .inf
  | .inf, .fin _ => .inf
  | .fin _, .ninf => .ninf
  | .ninf, .fin _ => .ninf
  | .inf, .inf => .inf
  | .ninf, .ninf => .ninf
  | .inf, .ninf => .nan
  | .ninf, .inf => .nan

/-- IEEE subtraction on `PFloat`. -/
def PFloat.sub : PFloat → PFloat → PFloat
  | .nan, _ => .nan
  | _, .nan => .nan
  | .fin a, .fin b => .fin (a - b)
  | .fin _, .inf => .ninf
  | .inf, .fin _ => .inf
  | .fin _, .ninf => .inf
  | .ninf, .fin _ => .ninf
  | .inf, .inf => .nan
  | .ninf, .ninf => .nan
  | .inf, .ninf => .inf
  | .ninf, .inf => .ninf

/-- IEEE division on `PFloat`: a positive finite value divided by zero
is `inf`, `0/0` is `nan`, a finite value divided by an infinity is 0. -/
def PFloat.div : PFloat → PFloat → PFloat
  | .nan, _ => .nan
  | _, .nan => .nan
  | .fin a, .fin b =>
    if b = 0 then
      if a = 0 then .nan else if 0 < a then .inf else .ninf
    else .fin (a / b)
  | .fin _, .inf => .fin 0
  | .fin _, .ninf => .fin 0
  | .inf, .fin b => if 0 ≤ b then .inf else .ninf
  | .ninf, .fin b => if 0 ≤ b then .ninf else .inf
  | .inf, .inf => .nan
  | .inf, .ninf => .nan
  | .ninf, .inf => .nan
  | .ninf, .ninf => .nan

/-- `series.diff()`: NaN at index 0, then successive differences of the
(finite) closes. -/
def diffP : List ℚ → List PFloat
  | [] => []
  | c :: rest =>
    PFloat.nan :: List.zipWith (fun b a => PFloat.fin (b - a)) rest (c :: rest)

/-- `delta.where(delta > 0, 0)` applied to one delta: keep a positive
delta, otherwise 0.  The NaN delta at index 0 compares as not-greater
and becomes 0, so the result is always a plain rational. -/
def gainOf : PFloat → ℚ
  | .fin x => if 0 < x then x else 0
  | _ => 0

/-- `-delta.where(delta < 0, 0)` applied to one delta: the magnitude of
a negative delta, otherwise 0 (the NaN delta becomes 0). -/
def lossOf : PFloat → ℚ
  | .fin x => if x < 0 then -x else 0
  | _ => 0

/-- `xs.rolling(window=period).mean()`: NaN for the first `period − 1`
indices, afterwards the arithmetic mean of the trailing `period`
entries. -/
def rollingMean (period : Nat) (xs : List ℚ) : List PFloat :=
  (List.range xs.length).map (fun i =>
    if i + 1 < period then PFloat.nan
    else PFloat.fin ((((xs.drop (i + 1 - period)).take period).sum) /
      (period : ℚ)))

/-- `calculate_sma` (`indicators.py` lines 5–27) on the close column. -/
def calculate_sma (closes : List ℚ) (period : Nat) : List PFloat :=
  rollingMean period closes

/-- The `avg_gain` column of `calculate_rsi`. -/
def avgGainList (closes : List ℚ) (period : Nat) : List PFloat :=
  rollingMean period ((diffP closes).map gainOf)

/-- The `avg_loss` column of `calculate_rsi`. -/
def avgLossList (closes : List ℚ) (period : Nat) : List PFloat :=
  rollingMean period ((diffP closes).map lossOf)

/-- One RSI value: `rsi = 100 - (100 / (1 + rs))` with
`rs = avg_gain / avg_loss`, in pandas float arithmetic. -/
def rsiOf (g l : PFloat) : PFloat :=
  PFloat.sub (.fin 100)
    (PFloat.div (.fin 100) (PFloat.add (.fin 1) (PFloat.div g l)))

/-- `calculate_rsi` (`indicators.py` lines 29–67) on the close column. -/
def calculate_rsi (closes : List ℚ) (period : Nat) : List PFloat :=
  List.zipWith rsiOf (avgGainList closes period) (avgLossList closes period)

theorem rsiOf_nan_left (l : PFloat) : rsiOf .nan l = .nan := by
  cases l <;> rfl

theorem rsiOf_nan_right (g : PFloat) : rsiOf g .nan = .nan := by
  cases g <;> rfl

/-- RSI at a window with zero average loss and positive average gain is
exactly 100: the ratio is `inf`, `100/(1 + inf)` is 0. -/
theorem rsiOf_avgLoss_zero (g : ℚ) (hg : 0 < g) :
    rsiOf (.fin g) (.fin 0) = .fin 100 := by
  simp [rsiOf, PFloat.div, PFloat.add, PFloat.sub, hg, hg.ne']

/-- Any finite RSI value arising from nonnegative averages lies in
[0, 100]. -/
theorem rsiOf_bounds (g l : ℚ) (hg : 0 ≤ g) (hl : 0 ≤ l) (v : ℚ)
    (h : rsiOf (.fin g) (.fin l) = .fin v) : 0 ≤ v ∧ v ≤ 100 := by
  by_cases hl0 : l = 0
  · subst hl0
    by_cases hg0 : g = 0
    · subst hg0
      simp [rsiOf, PFloat.div, PFloat.add, PFloat.sub] at h
    · have hgpos : 0 < g := lt_of_le_of_ne hg (Ne.symm hg0)
      rw [rsiOf_avgLoss_zero g hgpos] at h
      obtain rfl : (100 : ℚ) = v := PFloat.fin.inj h
      norm_num
  · have hlpos : 0 < l := lt_of_le_of_ne hl (Ne.symm hl0)
    have hrs : 0 ≤ g / l := div_nonneg hg hl
    have hden : (0 : ℚ) < 1 + g / l := by linarith
    rw [show rsiOf (.fin g) (.fin l) =
        .fin (100 - 100 / (1 + g / l)) by
      simp [rsiOf, PFloat.div, PFloat.add, PFloat.sub, hl0, hden.ne']] at h
    obtain rfl : 100 - 100 / (1 + g / l) = v := PFloat.fin.inj h
    have ht0 : 0 < 100 / (1 + g / l) := by positivity
    have ht100 : 100 / (1 + g / l) ≤ 100 :=
      div_le_self (by norm_num) (by linarith)
    constructor <;> linarith

/-- Entries of a rolling mean over a nonnegative column are NaN or a
nonnegative rational. -/
theorem rollingMean_get?_cases (period : Nat) (xs : List ℚ)
    (hxs : ∀ x ∈ xs, 0 ≤ x) (i : Nat) (y : PFloat)
    (h : (rollingMean period xs).get? i = some y) :
    y = .nan ∨ ∃ m : ℚ, y = .fin m ∧ 0 ≤ m := by
  unfold rollingMean at h
  rw [List.get?_eq_getElem?, List.getElem?_map, ← List.get?_eq_getElem?] at h
  cases hr : (List.range xs.length).get? i with
  | none => rw [hr] at h; simp at h
  | some j =>
    rw [hr] at h
    simp only [Option.map_some', Option.some.injEq] at h
    by_cases hj : j + 1 < period
    · left
      rw [← h, if_pos hj]
    · right
      refine ⟨(((xs.drop (j + 1 - period)).take period).sum) / (period : ℚ),
        by rw [← h, if_neg hj], ?_⟩
      apply div_nonneg _ (by positivity)
      apply List.sum_nonneg
      intro x hx
      exact hxs x (List.drop_subset _ _ (List.take_subset _ _ hx))

theorem gainOf_nonneg (d : PFloat) : 0 ≤ gainOf d := by
  cases d with
  | fin x =>
    simp only [gainOf]
    split <;> linarith
  | inf => exact le_refl 0
  | ninf => exact le_refl 0
  | nan => exact le_refl 0

theorem lossOf_nonneg (d : PFloat) : 0 ≤ lossOf d := by
  cases d with
  | fin x =>
    simp only [lossOf]
    split <;> linarith
  | inf => exact le_refl 0
  | ninf => exact le_refl 0
  | nan => exact le_refl 0

theorem avgGainList_nonneg (closes : List ℚ) (period i : Nat) (y : PFloat)
    (h : (avgGainList closes period).get? i = some y) :
    y = .nan ∨ ∃ m : ℚ, y = .fin m ∧ 0 ≤ m := by
  refine rollingMean_get?_cases period _ ?_ i y h
  intro x hx
  obtain ⟨d, _, rfl⟩ := List.mem_map.mp hx
  exact gainOf_nonneg d

theorem avgLossList_nonneg (closes : List ℚ) (period i : Nat) (y : PFloat)
    (h : (avgLossList closes period).get? i = some y) :
    y = .nan ∨ ∃ m : ℚ, y = .fin m ∧ 0 ≤ m := by
  refine rollingMean_get?_cases period _ ?_ i y h
  intro x hx
  obtain ⟨d, _, rfl⟩ := List.mem_map.mp hx
  exact lossOf_nonneg d

/-- C6: every defined (finite) RSI value of `calculate_rsi` lies in
[0, 100]; and at any index whose trailing average loss is zero while
the window is non-degenerate (its average gain is positive), the RSI
value is exactly 100 rather than NaN. -/
theorem C6_rsi_bounds (closes : List ℚ) (period i : Nat) :
    (∀ v : ℚ, (calculate_rsi closes period).get? i = some (.fin v) →
      0 ≤ v ∧ v ≤ 100) ∧
    (∀ g : ℚ, (avgGainList closes period).get? i = some (.fin g) →
      0 < g →
      (avgLossList closes period).get? i = some (.fin 0) →
      (calculate_rsi closes period).get? i = some (.fin 100)) := by
  constructor
  · intro v h
    rw [calculate_rsi, List.get?_zipWith_eq_some] at h
    obtain ⟨gy, ly, hgy, hly, hf⟩ := h
    rcases avgGainList_nonneg closes period i gy hgy with rfl | ⟨g, rfl, hg⟩
    · rw [rsiOf_nan_left] at hf; simp at hf
    rcases avgLossList_nonneg closes period i ly hly with rfl | ⟨l, rfl, hl⟩
    · rw [rsiOf_nan_right] at hf; simp at hf
    exact rsiOf_bounds g l hg hl v hf
  · intro g hg hgpos hl
    rw [calculate_rsi, List.get?_zipWith_eq_some]
    exact ⟨.fin g, .fin 0, hg, hl, rsiOf_avgLoss_zero g hgpos⟩

/-- Witness for C6 at a concrete input: for closes [1, 2, 3] with RSI
period 2, the average loss at index 1 is 0, the average gain is 1/2,
and the RSI value is exactly 100. -/
theorem C6_rsi_bounds_witness :
    (calculate_rsi [1, 2, 3] 2).get? 1 = some (.fin 100) :=
  (C6_rsi_bounds [1, 2, 3] 2 1).2 (1 / 2)
    (by norm_num [avgGainList, rollingMean, diffP, gainOf,
      List.range, List.range.loop])
    (by norm_num)
    (by norm_num [avgLossList, rollingMean, diffP, lossOf,
      List.range, List.range.loop])

/-! ## Signal generation (`signals.py`, class `SignalGenerator`) -/

/-- The columns added by `SignalGenerator.generate_signals`. -/
structure SignalFrame where
  close : List ℚ
  sma : List PFloat
  rsi : List PFloat
  price_above_sma : List Bool
  price_cross_above_sma : List Bool
  price_cross_below_sma : List Bool
  rsi_below_threshold : List Bool
  rsi_above_threshold : List Bool
  buy_signal : List Bool
  sell_signal : List Bool
  short_signal : List Bool
  cover_signal : List Bool
deriving DecidableEq, Repr

/-- `close > sma` with pandas semantics: any comparison against NaN is
false. -/
def gtP (c : ℚ) (s : PFloat) : Bool :=
  match s with
  | .fin x => decide (x < c)
  | .inf => false
  | .ninf => true
  | .nan => false

/-- `rsi < threshold` (false on NaN). -/
def ltThresh (r : PFloat) (q : ℚ) : Bool :=
  match r with
  | .fin x => decide (x < q)
  | .inf => false
  | .ninf => true
  | .nan => false

/-- `rsi >= threshold` (false on NaN). -/
def geThresh (r : PFloat) (q : ℚ) : Bool :=
  match r with
  | .fin x => decide (q ≤ x)
  | .inf => true
  | .ninf => false
  | .nan => false

/-- `.shift(1).fillna(False)` on a boolean column: drop the last entry
and prepend False. -/
def shiftFillFalse : List Bool → List Bool
  | [] => []
  | bs => false :: bs.dropLast

/-- `SignalGenerator.generate_signals` (`signals.py` lines 29–74):
`None` when the bar count is below the moving-average period, otherwise
the frame with indicator and signal columns.  The four signal columns
mirror lines 63–72: `buy = cross_above ∧ rsi_below`,
`sell = cross_below ∨ rsi_above`, `short = cross_below ∨ rsi_above`,
`cover = cross_above ∨ rsi_below`. -/
def generate_signals (closes : List ℚ) (ma_period rsi_period : Nat)
    (rsi_overbought rsi_oversold : ℚ) : Option SignalFrame :=
  if closes.length < ma_period then
    none
  else
    let sma := calculate_sma closes ma_period
    let rsi := calculate_rsi closes rsi_period
    let pa := List.zipWith gtP closes sma
    let pca := List.zipWith (fun a b => a && !b) pa (shiftFillFalse pa)
    let pcb := List.zipWith (fun a b => !a && b) pa (shiftFillFalse pa)
    let rb := rsi.map (fun r => ltThresh r rsi_oversold)
    let ra := rsi.map (fun r => geThresh r rsi_overbought)
    some
      { close := closes
        sma := sma
        rsi := rsi
        price_above_sma := pa
        price_cross_above_sma := pca
        price_cross_below_sma := pcb
        rsi_below_threshold := rb
        rsi_above_threshold := ra
        buy_signal := List.zipWith (fun a b => a && b) pca rb
        sell_signal := List.zipWith (fun a b => a || b) pcb ra
        short_signal := List.zipWith (fun a b => a || b) pcb ra
        cover_signal := List.zipWith (fun a b => a || b) pca rb }

/-- C7 counterexample: on closes [1, 2, 3] with MA period 2, RSI period
2, overbought 70, oversold 30, the generated frame has
`buy_signal ≠ cover_signal` (at bar 1 the price crosses above the SMA
while RSI = 100 is not below 30, so buy — an AND — is false while cover
— an OR — is true).  SELL and SHORT do share one trigger, but BUY and
COVER do not. -/
theorem C7_counterexample :
    (generate_signals [1, 2, 3] 2 2 70 30).map SignalFrame.buy_signal ≠
      (generate_signals [1, 2, 3] 2 2 70 30).map SignalFrame.cover_signal ∧
    (generate_signals [1, 2, 3] 2 2 70 30).isSome = true := by
  norm_num [generate_signals, calculate_sma, calculate_rsi, avgGainList,
    avgLossList, rollingMean, diffP, gainOf, lossOf, rsiOf, PFloat.add,
    PFloat.sub, PFloat.div, gtP, ltThresh, geThresh, shiftFillFalse,
    List.range, List.range.loop]

/-- C7 amended: for every generated signal frame the SELL and SHORT
trigger columns are identical booleans (both `crossedBelow ∨
oscillatorHigh`); the BUY trigger (`crossedAbove ∧ oscillatorLow`)
implies the COVER trigger (`crossedAbove ∨ oscillatorLow`) bar by bar,
but not conversely. -/
theorem C7_sell_short_share_trigger (closes : List ℚ)
    (ma_period rsi_period : Nat) (rsi_overbought rsi_oversold : ℚ)
    (df : SignalFrame)
    (h : generate_signals closes ma_period rsi_period rsi_overbought
      rsi_oversold = some df) :
    df.sell_signal = df.short_signal ∧
    ∀ i, df.buy_signal.get? i = some true →
      df.cover_signal.get? i = some true := by
  rw [generate_signals] at h
  split at h
  · exact absurd h (by simp)
  · obtain rfl := Option.some.inj h
    refine ⟨rfl, fun i hb => ?_⟩
    rw [List.get?_zipWith_eq_some] at hb ⊢
    obtain ⟨a, b, ha, hbb, hab⟩ := hb
    refine ⟨a, b, ha, hbb, ?_⟩
    cases a <;> cases b <;> simp_all

/-- Witness for the amended C7 at a concrete input: the frame generated
for closes [1, 2, 3] has identical SELL and SHORT columns. -/
theorem C7_sell_short_share_trigger_witness :
    (generate_signals [1, 2, 3] 2 2 70 30).map SignalFrame.sell_signal =
      (generate_signals [1, 2, 3] 2 2 70 30).map SignalFrame.short_signal ∧
    (generate_signals [1, 2, 3] 2 2 70 30).isSome = true := by
  refine ⟨?_, by rw [generate_signals]; norm_num⟩
  cases hEq : generate_signals [1, 2, 3] 2 2 70 30 with
  | none => rfl
  | some df =>
    simp [(C7_sell_short_share_trigger [1, 2, 3] 2 2 70 30 df hEq).1]

/-! ## Per-symbol decision step (`main.py`, `TradingBot.run_strategy`)

The decision logic of `run_strategy` (lines 215–320) as a pure
function.  `position` is the value returned by
`TradingChecks.get_current_position`; the four booleans are the signal
flags of the latest bar; `buyingPowerOk` and `shortValidationOk` stand
for the results of `check_buying_power` and `validate_short_order`;
`positionSize` is `DEFAULT_POSITION_SIZE`.  The returned value is the
(action, quantity) pair passed to `place_limit_order`, or `none` when
no order intent is issued. -/
def run_strategy_decision (position : Int) (buy sell shrt cover : Bool)
    (buyingPowerOk shortValidationOk : Bool) (positionSize : Int) :
    Option (Action × Int) :=
  if 0 ≤ position then
    if position = 0 ∧ buy = true then
      if buyingPowerOk = true then some (.BUY, positionSize) else none
    else if 0 < position ∧ sell = true then
      some (.SELL, position)
    else if position = 0 ∧ shrt = true then
      if shortValidationOk = true then some (.SHORT, positionSize) else none
    else
      none
  else
    if cover = true then some (.COVER, -position) else none

/-- The whole per-symbol cycle of `run_strategy`, for claim C9: the
fetched data (or `None`), the early return on empty data, signal
generation, then the decision on the latest bar's flags
(`latest.get(..., False)`). -/
def run_strategy (data : Option (List ℚ)) (ma_period rsi_period : Nat)
    (rsi_overbought rsi_oversold : ℚ) (position : Int)
    (buyingPowerOk shortValidationOk : Bool) (positionSize : Int) :
    Option (Action × Int) :=
  match data with
  | none => none
  | some closes =>
    if closes = [] then
      none
    else
      match generate_signals closes ma_period rsi_period rsi_overbought
          rsi_oversold with
      | none => none
      | some df =>
        run_strategy_decision position
          (df.buy_signal.getLast?.getD false)
          (df.sell_signal.getLast?.getD false)
          (df.short_signal.getLast?.getD false)
          (df.cover_signal.getLast?.getD false)
          buyingPowerOk shortValidationOk positionSize

/-- C5: the decision step never issues a BUY intent while the current
position quantity is positive, and never a SHORT intent while it is
negative: both the BUY and the SHORT branch require `position == 0`. -/
theorem C5_no_doubling (position : Int) (buy sell shrt cover : Bool)
    (buyingPowerOk shortValidationOk : Bool) (positionSize q : Int) :
    (0 < position →
      run_strategy_decision position buy sell shrt cover buyingPowerOk
        shortValidationOk positionSize ≠ some (.BUY, q)) ∧
    (position < 0 →
      run_strategy_decision position buy sell shrt cover buyingPowerOk
        shortValidationOk positionSize ≠ some (.SHORT, q)) := by
  constructor
  · intro hpos
    simp only [run_strategy_decision]
    rw [if_pos (le_of_lt hpos),
      if_neg (fun hc => absurd hc.1 (by omega))]
    split_ifs <;> simp
  · intro hneg
    simp only [run_strategy_decision]
    rw [if_neg (by omega)]
    split_ifs <;> simp

/-- Witness for C5 at a concrete input: with a long position of 5 and
every flag raised, no BUY intent of size 100 is issued. -/
theorem C5_no_doubling_witness :
    run_strategy_decision 5 true true true true true true 100 ≠
      some (.BUY, 100) :=
  (C5_no_doubling 5 true true true true true true 100 100).1 (by decide)

/-- C9: when the bar count is below the moving-average period,
`generate_signals` returns `None`, and the calling cycle issues no
order intent for the symbol (it returns early instead of raising). -/
theorem C9_insufficient_history (closes : List ℚ)
    (ma_period rsi_period : Nat) (rsi_overbought rsi_oversold : ℚ)
    (position : Int) (buyingPowerOk shortValidationOk : Bool)
    (positionSize : Int) (h : closes.length < ma_period) :
    generate_signals closes ma_period rsi_period rsi_overbought
      rsi_oversold = none ∧
    run_strategy (some closes) ma_period rsi_period rsi_overbought
      rsi_oversold position buyingPowerOk shortValidationOk positionSize =
      none := by
  have hg : generate_signals closes ma_period rsi_period rsi_overbought
      rsi_oversold = none := by
    rw [generate_signals, if_pos h]
  refine ⟨hg, ?_⟩
  rw [run_strategy]
  split
  · rfl
  · rw [hg]

/-- Witness for C9 at a concrete input: 2 bars with MA period 50 yield
no signal frame and no order intent. -/
theorem C9_insufficient_history_witness :
    generate_signals [1, 2] 50 14 70 30 = none ∧
    run_strategy (some [1, 2]) 50 14 70 30 0 true true 100 = none :=
  C9_insufficient_history [1, 2] 50 14 70 30 0 true true 100 (by decide)

/-! ## Reconciliation invariant (claim C1) -/

/-- A fill is applied at a state in which `update_position` actually
honours it: positive quantity, a SELL never exceeds the current long
quantity, and a COVER is applied only while the position is short.
(BUY and SHORT are honoured from every state.) -/
def validFill (pm : PortfolioManager) (f : Fill) : Bool :=
  decide (0 < f.quantity) &&
    match f.action with
    | .SELL => decide (f.quantity ≤ get_position pm f.symbol)
    | .COVER => decide (get_position pm f.symbol < 0)
    | _ => true

/-- Every fill of the sequence is valid at the state it is applied
to. -/
def validSeq : PortfolioManager → List Fill → Bool
  | _, [] => true
  | pm, f :: fs => validFill pm f && validSeq (applyFill pm f) fs

/-- A fill never touches the positions dict entry of another symbol. -/
theorem applyFill_positions_ne (pm : PortfolioManager) (f : Fill)
    (sym : String) (h : sym ≠ f.symbol) :
    (applyFill pm f).positions sym = pm.positions sym := by
  obtain ⟨s, q, p, a, o, t⟩ := f
  simp only [Fill.symbol] at h
  cases a <;> simp only [applyFill, update_position] <;>
    cases hps : pm.positions s <;> simp only [hps] <;>
    (try split) <;> (try split) <;> (try split) <;>
    first
      | rfl
      | exact PositionsMap.set_ne _ _ _ _ h
      | exact PositionsMap.del_ne _ _ _ h

/-- Appending one trade record adds its signed quantity to the signed
trade sum of its own symbol and changes no other symbol's sum. -/
theorem tradeSum_append (trades : List Trade) (tr : Trade) (sym : String) :
    tradeSum (trades ++ [tr]) sym =
      tradeSum trades sym +
        (if tr.symbol = sym then signedQty tr.action tr.qty else 0) := by
  unfold tradeSum
  rw [List.filter_append]
  by_cases h : tr.symbol = sym <;>
    simp [h, List.filter]

/-- Step lemma: a valid fill changes the tracked position quantity of
its symbol by exactly its signed quantity, and no other symbol's
quantity at all. -/
theorem validFill_step (pm : PortfolioManager) (f : Fill)
    (hv : validFill pm f = true) (sym : String) :
    get_position (applyFill pm f) sym =
      get_position pm sym +
        (if f.symbol = sym then signedQty f.action f.quantity else 0) := by
  obtain ⟨s, q, p, a, o, t⟩ := f
  simp only [validFill, Bool.and_eq_true, decide_eq_true_eq] at hv
  obtain ⟨hq, hact⟩ := hv
  by_cases hsym : s = sym
  · subst hsym
    rw [if_pos rfl]
    cases a with
    | BUY =>
      cases hps : pm.positions s with
      | some e =>
        by_cases hz : e.qty + q ≠ 0
        · simp only [applyFill, update_position, hps, if_pos hz,
            get_position, PositionsMap.set_self, signedQty]
        · simp only [applyFill, update_position, hps, if_neg hz,
            get_position, PositionsMap.del_self, signedQty]
          omega
      | none =>
        simp only [applyFill, update_position, hps, get_position,
          PositionsMap.set_self, signedQty]
        omega
    | SELL =>
      have hsell : q ≤ get_position pm s := by simpa using hact
      cases hps : pm.positions s with
      | some e =>
        simp only [get_position, hps] at hsell
        by_cases hle : e.qty - q ≤ 0
        · simp only [applyFill, update_position, hps, if_pos hle,
            get_position, PositionsMap.del_self, signedQty]
          omega
        · simp only [applyFill, update_position, hps, if_neg hle,
            get_position, PositionsMap.set_self, signedQty]
          omega
      | none =>
        simp only [get_position, hps] at hsell
        omega
    | SHORT =>
      cases hps : pm.positions s with
      | some e =>
        by_cases hz : e.qty - q = 0
        · simp only [applyFill, update_position, hps, if_pos hz,
            get_position, PositionsMap.del_self, signedQty]
          omega
        · simp only [applyFill, update_position, hps, if_neg hz,
            get_position, PositionsMap.set_self, signedQty]
          omega
      | none =>
        simp only [applyFill, update_position, hps, get_position,
          PositionsMap.set_self, signedQty]
        omega
    | COVER =>
      have hcover : get_position pm s < 0 := by simpa using hact
      cases hps : pm.positions s with
      | some e =>
        simp only [get_position, hps] at hcover
        by_cases hnn : 0 ≤ e.qty + q
        · by_cases hz : e.qty + q = 0
          · simp only [applyFill, update_position, hps, if_pos hcover,
              if_pos hnn, if_pos hz, get_position, PositionsMap.del_self,
              signedQty]
            omega
          · simp only [applyFill, update_position, hps, if_pos hcover,
              if_pos hnn, if_neg hz, get_position, PositionsMap.set_self,
              signedQty]
        · simp only [applyFill, update_position, hps, if_pos hcover,
            if_neg hnn, get_position, PositionsMap.set_self, signedQty]
      | none =>
        simp only [get_position, hps] at hcover
        omega
  · rw [if_neg hsym]
    have hne : sym ≠ s := fun hh => hsym hh.symm
    simp only [get_position,
      applyFill_positions_ne pm ⟨s, q, p, a, o, t⟩ sym hne, add_zero]

/-- The reconciliation invariant is preserved along any valid fill
sequence. -/
theorem reconciliation_invariant (fs : List Fill)
    (pm : PortfolioManager) (hv : validSeq pm fs = true)
    (hpm : ∀ sym, get_position pm sym = tradeSum pm.trades sym) :
    ∀ sym, get_position (applyFills pm fs) sym =
      tradeSum (applyFills pm fs).trades sym := by
  induction fs generalizing pm with
  | nil => exact hpm
  | cons f fs ih =>
    simp only [validSeq, Bool.and_eq_true] at hv
    refine ih (applyFill pm f) hv.2 ?_
    intro sym
    rw [validFill_step pm f hv.1 sym, applyFill_trades,
      tradeSum_append, hpm sym]
    rfl

/-- C1 counterexample: the single-fill sequence SELL 5 of "A" @ 10 from
an empty ledger is logged as a trade (signed sum −5) but leaves the
position quantity at 0 — the SELL branch warns and skips the dict
update for an absent symbol while the trade is still appended, so the
claimed invariant fails for unrestricted sequences. -/
theorem C1_counterexample :
    get_position
        (applyFills .empty [⟨"A", 5, 10, .SELL, none, 0⟩]) "A" ≠
      tradeSum
        (applyFills .empty [⟨"A", 5, 10, .SELL, none, 0⟩]).trades "A" := by
  decide

/-- C1 amended: for every sequence of fills in which each fill has
positive quantity, each SELL does not exceed the current long quantity
of its symbol, and each COVER is applied while its symbol is short, the
ledger's position quantity for every symbol equals the signed sum of
the logged trade quantities for that symbol (BUY/COVER positive,
SELL/SHORT negative). -/
theorem C1_signed_sum (fs : List Fill)
    (hv : validSeq PortfolioManager.empty fs = true) (sym : String) :
    get_position (applyFills PortfolioManager.empty fs) sym =
      tradeSum (applyFills PortfolioManager.empty fs).trades sym :=
  reconciliation_invariant fs PortfolioManager.empty hv (fun _ => rfl) sym

/-- A small mixed fill sequence: open and partially close a long in
"A", open a short in "B" and cover it through zero. -/
def c1Fills : List Fill :=
  [⟨"A", 10, 100, .BUY, some 1, 0⟩,
   ⟨"A", 4, 110, .SELL, some 2, 1⟩,
   ⟨"B", 5, 50, .SHORT, some 3, 2⟩,
   ⟨"B", 8, 40, .COVER, some 4, 3⟩]

/-- Witness for the amended C1 at a concrete input: the mixed sequence
is valid and reconciles for symbol "A" (quantity 6 = 10 − 4). -/
theorem C1_signed_sum_witness :
    validSeq PortfolioManager.empty c1Fills = true ∧
    get_position (applyFills PortfolioManager.empty c1Fills) "A" =
      tradeSum (applyFills PortfolioManager.empty c1Fills).trades "A" :=
  ⟨by decide, C1_signed_sum c1Fills (by decide) "A"⟩

end Spec2Proof
